import Mathlib

/-!
A verification development for a Telegram archiver bot.  The definitions below
are a shallow embedding of the bot's Python modules (`message_handler.py`,
`search_manager.py`, `archive_manager.py`, `user_manager.py`): pure data is
modelled by structures, database tables by lists of rows, and the handlers by
pure functions from inputs and the current table contents to the new table
contents.  SQL timestamps are modelled as natural numbers, chat / user
identities as integers, and JSON blobs (filter configuration, topic lists)
as their parsed shapes.
-/

namespace Archiver

/-! ### Generic string helpers

Python's `needle in haystack` is substring containment; we model strings
character-wise and lowercase with `Char.toLower` (Python `str.lower`, which
agrees on ASCII). -/

/-- `True` iff `needle` is a (list) prefix of `hay`, decided char by char. -/
def prefixMatch : List Char → List Char → Bool
  | [], _ => true
  | _ :: _, [] => false
  | a :: as, b :: bs => a == b && prefixMatch as bs

/-- `True` iff `needle` occurs contiguously inside `hay` (Python `in`). -/
def containsSub (needle : List Char) : List Char → Bool
  | [] => prefixMatch needle []
  | c :: t => prefixMatch needle (c :: t) || containsSub needle t

/-- Characters of a string lowercased (Python `str.lower` on ASCII). -/
def lowerStr (s : String) : List Char :=
  s.data.map Char.toLower

/-- Python `s.startswith(p)`. -/
def strStartsWith (s p : String) : Bool :=
  prefixMatch p.data s.data

/-- The characters after the last occurrence of `sep`, i.e. Python
`s.split(sep)[-1]` for a single-character separator. -/
def lastField (sep : Char) (s : List Char) : List Char :=
  s.foldl (fun acc c => if c == sep then [] else acc ++ [c]) []

/-- Python `s.split(sep)` for a single-character separator: the fields
between separators, empty fields included. -/
def splitFields (sep : Char) : List Char → List (List Char)
  | [] => [[]]
  | c :: t =>
    match splitFields sep t with
    | [] => [[]]
    | f :: fs => if c == sep then [] :: f :: fs else (c :: f) :: fs

/-- Drop leading whitespace characters. -/
def dropLeadingWs : List Char → List Char
  | [] => []
  | c :: t => if c.isWhitespace then dropLeadingWs t else c :: t

/-- Python `s.strip()` on a character list. -/
def trimChars (s : List Char) : List Char :=
  ((dropLeadingWs ((dropLeadingWs s).reverse)).reverse)

/-- Python `s.strip()`. -/
def trimStr (s : String) : String :=
  ⟨trimChars s.data⟩

/-- Python `s.isdigit()` (ASCII): nonempty and all digits. -/
def isDigitsCL (cs : List Char) : Bool :=
  !cs.isEmpty && cs.all Char.isDigit

/-- The numeric value of a digit string. -/
def digitsVal (cs : List Char) : Nat :=
  cs.foldl (fun a c => a * 10 + (c.toNat - 48)) 0

/-- Python `int(s)` restricted to digit strings, as an optional value
(`None` models the `ValueError` path). -/
def digitsToNat? (cs : List Char) : Option Nat :=
  if isDigitsCL cs then some (digitsVal cs) else none

/-! ### Data model

`ContentType` is the fixed set of content kinds the bot registers handlers
for (`setup_message_handlers` in `message_handler.py`). -/

inductive ContentType
  | text | photo | video | document | audio | voice | sticker | animation
deriving DecidableEq, Repr

/-- The JSON key used for a content kind in a source's `filter_config`. -/
def contentTypeName : ContentType → String
  | .text => "text"
  | .photo => "photo"
  | .video => "video"
  | .document => "document"
  | .audio => "audio"
  | .voice => "voice"
  | .sticker => "sticker"
  | .animation => "animation"

/-- One entry of a Telegram photo message's size array (`message.photo`). -/
structure PhotoSize where
  file_id : String
  width : Nat
  height : Nat
deriving DecidableEq, Repr

/-- The sender profile attached to a message (`message.from_user`). -/
structure TgUser where
  id : Int
  first_name : String
  last_name : Option String
  username : Option String
deriving DecidableEq, Repr

/-- An inbound Telegram message, restricted to the fields the archiver reads.
For media kinds other than photo the transport guarantees the corresponding
object is present, so its file id is modelled as a plain string; a photo
message carries its size-variant array. -/
structure Message where
  chat_id : Int
  chat_type : String
  message_id : Nat
  content_type : ContentType
  text : String
  caption : Option String
  is_topic_message : Bool
  message_thread_id : Option Int
  date : Nat
  from_user : Option TgUser
  photo : List PhotoSize
  video_file_id : String
  document_file_id : String
  audio_file_id : String
  voice_file_id : String
  sticker_file_id : String
  animation_file_id : String
deriving DecidableEq, Repr

/-- A source's parsed `filter_config` JSON blob: a dictionary of per-kind
boolean flags (a key may be absent) plus a keyword list. -/
structure FilterConfig where
  flags : List (String × Bool)
  keywords : List String
deriving DecidableEq, Repr

/-- `filter_config.get(key, default)` on the flags dictionary. -/
def FilterConfig.get (fc : FilterConfig) (key : String) (dflt : Bool) : Bool :=
  match fc.flags.lookup key with
  | some b => b
  | none => dflt

/-- One element of a source's parsed `topics_config` JSON list: either a
numeric topic id or the string sentinel `"all"`. -/
inductive TopicEntry
  | id (n : Int)
  | all
deriving DecidableEq, Repr

/-- A row of the `sources` table, with its JSON columns already parsed
(`filter_config`, `topics_config`). -/
structure Source where
  id : Nat
  type : String
  chat_id : Option Int
  chat_title : String
  chat_username : String
  is_active : Bool
  filter_config : FilterConfig
  topics_config : Option (List TopicEntry)
deriving DecidableEq, Repr

/-- A row of the `archived_messages` table. -/
structure ArchRow where
  source_id : Nat
  message_id : Nat
  sender_id : Int
  sender_name : String
  message_text : String
  media_type : String
  media_file_id : Option String
  topic_id : Option Int
  message_date : Nat
  archived_at : Nat
deriving DecidableEq, Repr

/-! ### `message_handler.py` : the archival pipeline -/

/-- `MessageHandler.get_message_text`: the message's text for a text message,
else its caption when truthy, else the empty string. -/
def get_message_text (m : Message) : String :=
  if m.content_type == ContentType.text then m.text
  else
    match m.caption with
    | some c => if c != "" then c else ""
    | none => ""

/-- `MessageHandler.get_sender_name`: first name, then last name and
`(@username)` suffix when truthy, or `"Unknown"` without a sender. -/
def get_sender_name (m : Message) : String :=
  match m.from_user with
  | none => "Unknown"
  | some u =>
    let full := u.first_name
    let full := match u.last_name with
      | some l => if l != "" then full ++ " " ++ l else full
      | none => full
    match u.username with
    | some un => if un != "" then full ++ " (@" ++ un ++ ")" else full
    | none => full

/-- `MessageHandler.get_media_info`: the content-kind tag and media file id.
For a photo the code takes `message.photo[-1]`; an empty size array would
raise `IndexError` (caught in `archive_message`, so nothing is written),
modelled as `none`. -/
def get_media_info (m : Message) : Option (String × Option String) :=
  match m.content_type with
  | .text => some ("text", none)
  | .photo =>
    match m.photo.getLast? with
    | some p => some ("photo", some p.file_id)
    | none => none
  | .video => some ("video", some m.video_file_id)
  | .document => some ("document", some m.document_file_id)
  | .audio => some ("audio", some m.audio_file_id)
  | .voice => some ("voice", some m.voice_file_id)
  | .sticker => some ("sticker", some m.sticker_file_id)
  | .animation => some ("animation", some m.animation_file_id)

/-- `MessageHandler.is_message_type_allowed`: each content kind is tested
against its flag, defaulting to `True` when the key is absent. -/
def is_message_type_allowed (m : Message) (fc : FilterConfig) : Bool :=
  if m.content_type == ContentType.text && !(fc.get "text" true) then false
  else if m.content_type == ContentType.photo && !(fc.get "photo" true) then false
  else if m.content_type == ContentType.video && !(fc.get "video" true) then false
  else if m.content_type == ContentType.document && !(fc.get "document" true) then false
  else if m.content_type == ContentType.audio && !(fc.get "audio" true) then false
  else if m.content_type == ContentType.voice && !(fc.get "voice" true) then false
  else if m.content_type == ContentType.sticker && !(fc.get "sticker" true) then false
  else if m.content_type == ContentType.animation && !(fc.get "animation" true) then false
  else true

/-- `MessageHandler.is_topic_allowed`: a missing or empty topic list denies;
the `"all"` sentinel allows everything; else the topic id must be listed. -/
def is_topic_allowed (topic_id : Option Int) (src : Source) : Bool :=
  match src.topics_config with
  | none => false
  | some tc =>
    if tc.isEmpty then false
    else if tc.contains TopicEntry.all then true
    else
      match topic_id with
      | some t => tc.contains (TopicEntry.id t)
      | none => false

/-- `MessageHandler.passes_keyword_filter`: an empty keyword list passes;
otherwise the message must have truthy text and some keyword must occur in
it, case-insensitively. -/
def passes_keyword_filter (m : Message) (fc : FilterConfig) : Bool :=
  if fc.keywords.isEmpty then true
  else
    let text := get_message_text m
    if text == "" then false
    else fc.keywords.any (fun k => containsSub (lowerStr k) (lowerStr text))

/-- The `archived_messages` row computed by `MessageHandler.archive_message`
for message `m` at source `source_id`, archived at time `now`. -/
def mkArchRow (m : Message) (source_id : Nat) (mt : String)
    (fid : Option String) (now : Nat) : ArchRow :=
  { source_id := source_id
    message_id := m.message_id
    sender_id := match m.from_user with | some u => u.id | none => 0
    sender_name := get_sender_name m
    message_text := get_message_text m
    media_type := mt
    media_file_id := fid
    topic_id := m.message_thread_id
    message_date := m.date
    archived_at := now }

/-- The `(source_id, message_id)` key test used by the upsert's SELECT,
UPDATE and INSERT statements. -/
def isKey (sid mid : Nat) (r : ArchRow) : Bool :=
  r.source_id == sid && r.message_id == mid

/-- `MessageHandler.archive_message`: extract the row fields (a failing media
extraction aborts with nothing written), then update every row with the
`(source_id, message_id)` key if one exists, else insert a new row. -/
def archive_message (m : Message) (source_id : Nat) (now : Nat)
    (db : List ArchRow) : List ArchRow :=
  match get_media_info m with
  | none => db
  | some (mt, fid) =>
    if db.any (isKey source_id m.message_id) then
      db.map (fun r =>
        if isKey source_id m.message_id r then
          { r with
            sender_id := match m.from_user with | some u => u.id | none => 0
            sender_name := get_sender_name m
            message_text := get_message_text m
            media_type := mt
            media_file_id := fid
            topic_id := m.message_thread_id
            message_date := m.date
            archived_at := now }
        else r)
    else db ++ [mkArchRow m source_id mt fid now]

/-- The `SELECT * FROM sources WHERE chat_id = %s AND is_active = TRUE`
lookup in `MessageHandler.process_message` (first matching row). -/
def find_source (chat_id : Int) (sources : List Source) : Option Source :=
  sources.find? (fun s => s.chat_id == some chat_id && s.is_active)

/-- `MessageHandler.process_message`: look up an active source for the chat,
run the content-kind, topic and keyword checks in order, short-circuiting on
the first failure, then archive. -/
def process_message (m : Message) (sources : List Source) (now : Nat)
    (db : List ArchRow) : List ArchRow :=
  match find_source m.chat_id sources with
  | none => db
  | some source =>
    if !(is_message_type_allowed m source.filter_config) then db
    else if source.type == "topic_group" && m.is_topic_message
        && !(is_topic_allowed m.message_thread_id source) then db
    else if !(passes_keyword_filter m source.filter_config) then db
    else archive_message m source.id now db

/-- The number of archive rows carrying a given `(source_id, message_id)` key. -/
def countKey (db : List ArchRow) (sid mid : Nat) : Nat :=
  (db.filter (isKey sid mid)).length

/-- The archive holds at most one row per `(source_id, message_id)` key. -/
def noDupKeys (db : List ArchRow) : Prop :=
  ∀ sid mid, countKey db sid mid ≤ 1

/-! ### `search_manager.py` : the search engine -/

/-- The topic filter value: a concrete topic id or the `"all"` sentinel. -/
inductive TopicSel
  | id (n : Int)
  | all
deriving DecidableEq, Repr

/-- The per-user accumulated search filter set; an absent key is `none`.
Python tests both key presence and truthiness, so activity of each field is
presence plus the value being truthy (a date, being a `datetime`, is always
truthy). -/
structure Filters where
  text : Option String
  date_from : Option Nat
  date_to : Option Nat
  media_type : Option String
  sender_id : Option Int
  sender_name : Option String
  topic_id : Option TopicSel
deriving DecidableEq, Repr

/-- The empty filter set (a fresh search with nothing selected). -/
def emptyFilters : Filters :=
  ⟨none, none, none, none, none, none, none⟩

/-- `'sender_id' in filters and filters['sender_id']` (0 is falsy). -/
def senderIdActive (f : Filters) : Bool :=
  match f.sender_id with
  | some i => i != 0
  | none => false

/-- `'sender_name' in filters and filters['sender_name']`. -/
def senderNameActive (f : Filters) : Bool :=
  match f.sender_name with
  | some n => n != ""
  | none => false

/-- SQL `LIKE '%pat%'` under the default case-insensitive collation. -/
def likeContains (hay pat : String) : Bool :=
  containsSub (lowerStr pat) (lowerStr hay)

/-- The WHERE clause built by `SearchManager.search_messages`: the source-id
restriction plus one conjunct per active filter field, with `sender_id`
taking precedence over `sender_name` (the `elif`). -/
def rowMatches (sid : Nat) (f : Filters) (r : ArchRow) : Bool :=
  (r.source_id == sid)
  && (match f.text with
      | some t => if t != "" then likeContains r.message_text t else true
      | none => true)
  && (match f.date_from with
      | some d => decide (d ≤ r.message_date)
      | none => true)
  && (match f.date_to with
      | some d => decide (r.message_date ≤ d)
      | none => true)
  && (match f.media_type with
      | some mt => if mt != "" then r.media_type == mt else true
      | none => true)
  && (if senderIdActive f then r.sender_id == (f.sender_id.getD 0)
      else if senderNameActive f then likeContains r.sender_name (f.sender_name.getD "")
      else true)
  && (match f.topic_id with
      | some (TopicSel.id n) => r.topic_id == some n
      | some TopicSel.all => true
      | none => true)

/-- `ORDER BY message_date DESC`: row `a` may precede row `b`. -/
def dateGe (a b : ArchRow) : Prop :=
  b.message_date ≤ a.message_date

instance : DecidableRel dateGe := fun _ _ => Nat.decLe _ _

instance : IsTotal ArchRow dateGe :=
  ⟨fun a b => Nat.le_total b.message_date a.message_date⟩

instance : IsTrans ArchRow dateGe :=
  ⟨fun _ _ _ hab hbc => Nat.le_trans hbc hab⟩

/-- `SearchManager.search_messages`: all rows of the chosen source passing
the conjunction of active filters, ordered by message date descending. -/
def search_messages (sid : Nat) (f : Filters) (db : List ArchRow) : List ArchRow :=
  List.insertionSort dateGe (db.filter (rowMatches sid f))

/-- What one page of `SearchManager.show_search_results` displays. -/
structure PageView where
  page : Int
  total_pages : Nat
  items : List ArchRow
deriving DecidableEq, Repr

/-- A Python exception raised by a handler (caught by the dispatcher's
try/except, so the operation has no effect). -/
inductive PyError
  | attributeError
deriving DecidableEq, Repr

/-- `SearchManager.show_search_results` begins with
`bot = telebot.TeleBot.__self__` (search_manager.py:437).  `TeleBot` is a
plain class and has no `__self__` attribute, so this first statement raises
`AttributeError` on every call, before any pagination code runs; the
dispatcher catches the exception and nothing is computed or displayed. -/
def show_search_results (results : List ArchRow) (page : Int) :
    Except PyError PageView :=
  Except.error PyError.attributeError

/-- The pagination and display code below the faulting first statement of
`show_search_results` (search_manager.py:440-460) — unreachable in the
program, modelled separately as the method's evident intent: over the
result list held in the per-user state (the archive is not consulted),
`none` on an empty result set, otherwise the clamped page, the page count
and the slice `results[start_idx:end_idx]`. -/
def show_search_results_unreachable (results : List ArchRow) (page : Int) :
    Option PageView :=
  if results.isEmpty then none
  else
    let page_size : Nat := 10
    let total_pages : Nat := (results.length + page_size - 1) / page_size
    let p : Int := max 1 (min page (Int.ofNat total_pages))
    let start : Nat := (p - 1).toNat * page_size
    let stop : Nat := min (start + page_size) results.length
    some ⟨p, total_pages, (results.drop start).take (stop - start)⟩

/-! ### `user_manager.py` / `search_manager.py` : users and permissions -/

/-- A row of the `users` table. -/
structure BotUser where
  user_id : Int
  username : String
  is_admin : Bool
deriving DecidableEq, Repr

/-- A row of the `permissions` table (unique per `(user_id, source_id)`). -/
structure Perm where
  user_id : Int
  source_id : Nat
  can_search : Bool
deriving DecidableEq, Repr

/-- The `(user_id, source_id)` key test of the permissions queries. -/
def permKey (uid : Int) (sid : Nat) (p : Perm) : Bool :=
  p.user_id == uid && p.source_id == sid

/-- `UserManager.toggle_user_permission` begins with
`bot = telebot.TeleBot.__self__` (user_manager.py:424), which raises
`AttributeError` on every call — as does its only dispatch route,
`UserManager.handle_callback` (user_manager.py:76) — before the permissions
SELECT/INSERT/UPDATE ever run; the dispatcher catches the exception, so the
permissions table is never read or written. -/
def toggle_user_permission (uid : Int) (sid : Nat) (perms : List Perm) :
    Except PyError (List Perm) :=
  Except.error PyError.attributeError

/-- The toggle logic below the faulting first statement of
`toggle_user_permission` (user_manager.py:426-444) — unreachable in the
program, modelled separately as the method's evident intent: flip the
existing row's `can_search`, or insert a new row granted by default. -/
def toggle_user_permission_unreachable (uid : Int) (sid : Nat) (perms : List Perm) :
    List Perm :=
  match perms.find? (permKey uid sid) with
  | some p =>
    perms.map (fun q => if permKey uid sid q then { q with can_search := !p.can_search } else q)
  | none => perms ++ [⟨uid, sid, true⟩]

/-- `SearchManager.get_accessible_sources`: admins see every active source;
other identities see the active sources joined to a `can_search` permission. -/
def get_accessible_sources (uid : Int) (users : List BotUser)
    (perms : List Perm) (sources : List Source) : List Source :=
  match users.find? (fun u => u.user_id == uid) with
  | some u =>
    if u.is_admin then sources.filter (fun s => s.is_active)
    else
      sources.filter (fun s =>
        s.is_active && perms.any (fun p => permKey uid s.id p && p.can_search))
  | none =>
    sources.filter (fun s =>
      s.is_active && perms.any (fun p => permKey uid s.id p && p.can_search))

/-! ### `archive_manager.py` : the archive-setup wizard

Python drives the flow by registering one-shot next-step handlers; the
in-memory `user_states[user_id]` entry carries a step tag and the
`source_data` accumulator.  We model the step tag as an inductive: staying on
the same step models re-registering the same handler after invalid input. -/

/-- A string lowercased (Python `str.lower` on ASCII). -/
def lowerString (s : String) : String :=
  ⟨lowerStr s⟩

/-- The wizard's step tag. -/
inductive WStep
  | request_source_type | request_source_link | request_source_title
  | request_topics | select_filters | edit_source
deriving DecidableEq, Repr

/-- The wizard's `source_data` accumulator; an absent dictionary key is
`none`. -/
structure SourceData where
  type : Option String
  chat_id : Option Int
  chat_username : Option String
  chat_title : Option String
  topics : Option (List TopicEntry)
  filter_config : Option FilterConfig
deriving DecidableEq, Repr

/-- One user's wizard state: the step tag plus the accumulator. -/
structure WizardState where
  step : WStep
  source_data : SourceData
deriving DecidableEq, Repr

/-- The field extracted from a valid source link. -/
inductive LinkField
  | username (u : String)
  | chatId (i : Int)
deriving DecidableEq, Repr

/-- The link grammar of `ArchiveManager.process_source_link`: a `t.me` URL,
an `@username`, or a `-100…` numeric chat id; anything else is invalid.
For the numeric form `int(link)` is the negation of the digits after the
minus sign. -/
def parse_source_link (link : String) : Option LinkField :=
  let cs := link.data
  if strStartsWith link "https://t.me/" then
    some (LinkField.username ⟨lastField '/' cs⟩)
  else if strStartsWith link "@" then
    some (LinkField.username ⟨cs.drop 1⟩)
  else if strStartsWith link "-100" && isDigitsCL (cs.drop 4) then
    some (LinkField.chatId (-(Int.ofNat (digitsVal (cs.drop 1)))))
  else none

/-- The title grammar of `ArchiveManager.process_source_title`:
length in `[3, 100]`. -/
def validTitle (t : String) : Bool :=
  !(t.length < 3 || t.length > 100)

/-- The topic-list grammar of `ArchiveManager.process_topics` (input already
stripped and lowercased): `all`, or a comma-separated list from which the
digit-only tokens are taken; no valid token means invalid input. -/
def parse_topics (s : String) : Option (List TopicEntry) :=
  if s == "all" then some [TopicEntry.all]
  else
    let ts := (splitFields ',' s.data).filterMap (fun tok => digitsToNat? (trimChars tok))
    if ts.isEmpty then none
    else some (ts.map (fun n => TopicEntry.id (Int.ofNat n)))

/-- `ArchiveManager.process_keywords`: `clear` empties the keyword list,
anything else is split on commas keeping the truthy stripped tokens. -/
def parse_keywords (s : String) : List String :=
  if lowerString s == "clear" then []
  else (splitFields ',' s.data).filterMap (fun k =>
    let k' := trimChars k
    if k'.isEmpty then none else some ⟨k'⟩)

/-- The default `filter_config` installed by
`ArchiveManager.show_filter_options` when absent. -/
def defaultFilterConfig : FilterConfig :=
  { flags := [("text", true), ("photo", true), ("video", true), ("document", true),
              ("audio", true), ("voice", true), ("sticker", true), ("animation", true)]
    keywords := [] }

/-- `ArchiveManager.show_filter_options`: enter `select_filters`, installing
the default filter configuration when none has been accumulated yet. -/
def show_filter_options_state (sd : SourceData) : WizardState :=
  { step := WStep.select_filters
    source_data :=
      if sd.filter_config.isSome then sd
      else { sd with filter_config := some defaultFilterConfig } }

/-- Flip one content-kind flag (a read of a missing key would raise before
any mutation, so a missing key leaves the dictionary unchanged). -/
def toggleFlag (fc : FilterConfig) (key : String) : FilterConfig :=
  { fc with flags := fc.flags.map (fun kv => if kv.fst == key then (kv.fst, !kv.snd) else kv) }

/-- The eight toggleable content-kind keys of `handle_filter_selection`. -/
def filterKinds : List String :=
  ["text", "photo", "video", "document", "audio", "voice", "sticker", "animation"]

/-- `ArchiveManager.save_archive_settings`, reduced to the row it inserts:
reads the accumulated fields (a missing required key raises, caught by the
dispatcher, so nothing is written — `none`) and builds the new `sources` row;
`is_active` defaults to true, and the topics column stays null unless the
source is a topic group with accumulated topics. -/
def save_archive_settings (sd : SourceData) (nextId : Nat) : Option Source :=
  match sd.chat_title, sd.type, sd.filter_config with
  | some title, some ty, some fc =>
    some { id := nextId
           type := ty
           chat_id := sd.chat_id
           chat_title := title
           chat_username := sd.chat_username.getD ""
           is_active := true
           filter_config := fc
           topics_config := if ty == "topic_group" && sd.topics.isSome then sd.topics else none }
  | _, _, _ => none

/-- The wizard-relevant events: a free-text message consumed by the step's
registered handler, a filter-toggle tap, a keywords entry, or the save tap. -/
inductive WEvent
  | textInput (s : String)
  | toggleFilter (key : String)
  | setKeywords (s : String)
  | saveSettings
deriving DecidableEq, Repr

/-- One wizard transition over the in-memory state and the `sources` table.
The result state is `none` exactly when the wizard entry was deleted (after
a successful save).  Invalid input leaves the state as is (the same handler
is re-registered) and never touches the table; only the save event writes. -/
def wizard_transition (st : WizardState) (db : List Source) (nextId : Nat) :
    WEvent → Option WizardState × List Source
  | WEvent.textInput s =>
    match st.step with
    | WStep.request_source_link =>
      let link := trimStr s
      match parse_source_link link with
      | some (LinkField.username u) =>
        (some { step := WStep.request_source_title
                source_data := { st.source_data with chat_username := some u } }, db)
      | some (LinkField.chatId i) =>
        (some { step := WStep.request_source_title
                source_data := { st.source_data with chat_id := some i } }, db)
      | none => (some st, db)
    | WStep.request_source_title =>
      let title := trimStr s
      if !(validTitle title) then (some st, db)
      else
        let sd := { st.source_data with chat_title := some title }
        if sd.type == some "topic_group" then
          (some { step := WStep.request_topics, source_data := sd }, db)
        else (some (show_filter_options_state sd), db)
    | WStep.request_topics =>
      match parse_topics (lowerString (trimStr s)) with
      | some ts =>
        (some (show_filter_options_state { st.source_data with topics := some ts }), db)
      | none => (some st, db)
    | _ => (some st, db)
  | WEvent.toggleFilter key =>
    if filterKinds.contains key then
      match st.source_data.filter_config with
      | some fc =>
        (some { st with source_data :=
            { st.source_data with filter_config := some (toggleFlag fc key) } }, db)
      | none => (some st, db)
    else (some st, db)
  | WEvent.setKeywords s =>
    match st.source_data.filter_config with
    | some fc =>
      (some (show_filter_options_state
        { st.source_data with
          filter_config := some { fc with keywords := parse_keywords (trimStr s) } }), db)
    | none => (some st, db)
  | WEvent.saveSettings =>
    match save_archive_settings st.source_data nextId with
    | some src => (none, db ++ [src])
    | none => (some st, db)

/-! ### `ArchiveManager.handle_callback` : the callback router -/

/-- The persistent stores the archive callbacks can reach, plus the sources
autoincrement counter. -/
structure BotDB where
  sources : List Source
  archived : List ArchRow
  nextId : Nat
deriving DecidableEq, Repr

/-- One user's view of the system as the callback router sees it. -/
structure CbState where
  wizard : Option WizardState
  db : BotDB
deriving DecidableEq, Repr

/-- `int(data.split("_")[-1])`, as an optional value (a malformed trailing
id raises, which the dispatcher catches). -/
def parseTrailingNat (data : String) : Option Nat :=
  digitsToNat? (lastField '_' data.data)

/-- `ArchiveManager.toggle_source_status`: flip `is_active` of the row,
leaving everything else untouched; an unknown id changes nothing. -/
def toggle_source_status (source_id : Nat) (sources : List Source) : List Source :=
  match sources.find? (fun s => s.id == source_id) with
  | none => sources
  | some s =>
    sources.map (fun t => if t.id == source_id then { t with is_active := !s.is_active } else t)

/-- `ArchiveManager.handle_callback`: the prefix-dispatched router.  The
`archive_topic_` branch calls a method the class does not define
(`AttributeError`, caught by the dispatcher: no effect); `delete_source`
only sends a confirmation prompt whose confirm payload
(`archive_delete_confirm_…`) again matches the `archive_delete_` route. -/
def archive_handle_callback (data : String) (st : CbState) : CbState :=
  if st.wizard.isNone && !(strStartsWith data "archive_view_") then st
  else if strStartsWith data "archive_source_" then
    match st.wizard with
    | some w =>
      let sd := { w.source_data with type := some (⟨lastField '_' data.data⟩ : String) }
      let w' : WizardState := { step := WStep.request_source_link, source_data := sd }
      { st with wizard := some w' }
    | none => st
  else if strStartsWith data "archive_filter_" then
    match st.wizard with
    | some w =>
      let key : String := ⟨lastField '_' data.data⟩
      if filterKinds.contains key then
        match w.source_data.filter_config with
        | some fc =>
          let sd := { w.source_data with filter_config := some (toggleFlag fc key) }
          let w' : WizardState := { w with source_data := sd }
          { st with wizard := some w' }
        | none => st
      else st
    | none => st
  else if strStartsWith data "archive_topic_" then st
  else if data == "archive_save_settings" then
    match st.wizard with
    | some w =>
      match save_archive_settings w.source_data st.db.nextId with
      | some src =>
        { wizard := none
          db := { st.db with sources := st.db.sources ++ [src], nextId := st.db.nextId + 1 } }
      | none => st
    | none => st
  else if strStartsWith data "archive_view_" then st
  else if strStartsWith data "archive_toggle_" then
    match parseTrailingNat data with
    | some sid => { st with db := { st.db with sources := toggle_source_status sid st.db.sources } }
    | none => st
  else if strStartsWith data "archive_delete_" then st
  else if strStartsWith data "archive_edit_" then
    match parseTrailingNat data with
    | some sid =>
      match st.db.sources.find? (fun s => s.id == sid) with
      | some s =>
        let sd : SourceData :=
          { type := some s.type
            chat_id := s.chat_id
            chat_username := some s.chat_username
            chat_title := some s.chat_title
            topics := s.topics_config
            filter_config := some s.filter_config }
        let w' : WizardState := { step := WStep.edit_source, source_data := sd }
        { st with wizard := some w' }
      | none => st
    | none => st
  else st

/-! ### Fixtures: concrete sources and messages used as evaluation witnesses -/

/-- A filter configuration with every content kind enabled (no stored flags,
so every lookup defaults to true) and no keywords. -/
def fcAll : FilterConfig := { flags := [], keywords := [] }

/-- A filter configuration whose keyword list is `["foo", "bar"]`. -/
def fcFooBar : FilterConfig := { flags := [], keywords := ["foo", "bar"] }

/-- An active channel source on chat `5` with no restrictions. -/
def srcChan : Source :=
  { id := 1, type := "channel", chat_id := some 5, chat_title := "News"
    chat_username := "", is_active := true, filter_config := fcAll
    topics_config := none }

/-- An active channel source on chat `6` with keyword list `["foo","bar"]`. -/
def srcKw : Source :=
  { id := 2, type := "channel", chat_id := some 6, chat_title := "Kw"
    chat_username := "", is_active := true, filter_config := fcFooBar
    topics_config := none }

/-- An active topic-group source on chat `7` with topic allow-list `[1, 2]`. -/
def srcTopics : Source :=
  { id := 3, type := "topic_group", chat_id := some 7, chat_title := "Tg"
    chat_username := "", is_active := true, filter_config := fcAll
    topics_config := some [TopicEntry.id 1, TopicEntry.id 2] }

/-- An active topic-group source on chat `8` with the `"all"` sentinel. -/
def srcTopicsAll : Source :=
  { id := 4, type := "topic_group", chat_id := some 8, chat_title := "TgAll"
    chat_username := "", is_active := true, filter_config := fcAll
    topics_config := some [TopicEntry.all] }

/-- A text message on chat `chat` with external id `mid` and body `txt`. -/
def textMsg (chat : Int) (mid : Nat) (txt : String) : Message :=
  { chat_id := chat, chat_type := "channel", message_id := mid
    content_type := ContentType.text, text := txt, caption := none
    is_topic_message := false, message_thread_id := none, date := 100
    from_user := some { id := 9, first_name := "Ann", last_name := none, username := none }
    photo := [], video_file_id := "", document_file_id := "", audio_file_id := ""
    voice_file_id := "", sticker_file_id := "", animation_file_id := "" }

/-- A text message posted inside topic thread `tid` of chat `chat`. -/
def topicMsg (chat : Int) (mid : Nat) (tid : Int) : Message :=
  { textMsg chat mid "hello" with
    chat_type := "supergroup", is_topic_message := true, message_thread_id := some tid }

/-- An archive row fixture with the given key and message date. -/
def rowFix (sid mid date : Nat) : ArchRow :=
  { source_id := sid, message_id := mid, sender_id := 9, sender_name := "Ann"
    message_text := "m", media_type := "text", media_file_id := none
    topic_id := none, message_date := date, archived_at := 0 }

/-- An empty wizard accumulator (fresh setup flow). -/
def sdEmpty : SourceData :=
  ⟨none, none, none, none, none, none⟩

/-- A fully accumulated wizard state ready for the save step. -/
def sdComplete : SourceData :=
  { type := some "channel", chat_id := some 5, chat_username := some ""
    chat_title := some "News", topics := none
    filter_config := some defaultFilterConfig }

/-- A photo message on chat `5` with two size variants (largest last). -/
def photoMsg : Message :=
  { textMsg 5 60 "" with
    content_type := ContentType.photo
    caption := some "pic"
    photo := [⟨"small", 90, 60⟩, ⟨"big", 900, 600⟩] }

/-! ### Spec-side predicates -/

/-- The specification's notion for the keyword filter: `kw` occurs in `text`
as a case-insensitive substring, stated as an explicit decomposition of the
lowercased text. -/
def containsKeywordCI (text kw : String) : Prop :=
  ∃ p t, p ++ lowerStr kw ++ t = lowerStr text

/-! ### Helper lemmas -/

theorem prefixMatch_iff (n h : List Char) :
    prefixMatch n h = true ↔ ∃ t, n ++ t = h := by
  induction n generalizing h with
  | nil => simp [prefixMatch]
  | cons a as ih =>
    cases h with
    | nil => simp [prefixMatch]
    | cons b bs =>
      simp only [prefixMatch, Bool.and_eq_true, beq_iff_eq, ih]
      constructor
      · rintro ⟨rfl, t, rfl⟩; exact ⟨t, rfl⟩
      · rintro ⟨t, he⟩
        injection he with h1 h2
        exact ⟨h1, t, h2⟩

theorem containsSub_iff (n h : List Char) :
    containsSub n h = true ↔ ∃ p t, p ++ n ++ t = h := by
  induction h with
  | nil =>
    simp only [containsSub, prefixMatch_iff]
    constructor
    · rintro ⟨t, he⟩
      exact ⟨[], t, by simpa using he⟩
    · rintro ⟨p, t, he⟩
      obtain ⟨rfl, rfl, rfl⟩ :
          p = [] ∧ n = [] ∧ t = [] := by simpa [List.append_assoc] using he
      exact ⟨[], rfl⟩
  | cons c t ih =>
    simp only [containsSub, Bool.or_eq_true, prefixMatch_iff, ih]
    constructor
    · rintro (⟨u, he⟩ | ⟨p, u, he⟩)
      · exact ⟨[], u, by simpa using he⟩
      · exact ⟨c :: p, u, by simp [he]⟩
    · rintro ⟨p, u, he⟩
      cases p with
      | nil => exact Or.inl ⟨u, by simpa using he⟩
      | cons x xs =>
        injection he with h1 h2
        exact Or.inr ⟨xs, u, h2⟩

theorem is_message_type_allowed_eq (m : Message) (fc : FilterConfig) :
    is_message_type_allowed m fc = fc.get (contentTypeName m.content_type) true := by
  obtain ⟨_, _, _, ct, _, _, _, _, _, _, _, _, _, _, _, _, _⟩ := m
  cases ct <;> simp only [is_message_type_allowed, contentTypeName] <;>
    first
    | (cases h : fc.get "text" true <;> rfl)
    | (cases h : fc.get "photo" true <;> rfl)
    | (cases h : fc.get "video" true <;> rfl)
    | (cases h : fc.get "document" true <;> rfl)
    | (cases h : fc.get "audio" true <;> rfl)
    | (cases h : fc.get "voice" true <;> rfl)
    | (cases h : fc.get "sticker" true <;> rfl)
    | (cases h : fc.get "animation" true <;> rfl)

theorem countKey_append (a b : List ArchRow) (sid mid : Nat) :
    countKey (a ++ b) sid mid = countKey a sid mid + countKey b sid mid := by
  simp [countKey, List.filter_append]

theorem countKey_pos_iff_any (db : List ArchRow) (sid mid : Nat) :
    0 < countKey db sid mid ↔ db.any (isKey sid mid) = true := by
  rw [countKey, List.length_pos, Ne, List.filter_eq_nil_iff, List.any_eq_true]
  push_neg
  simp

theorem countKey_map_key_preserving (db : List ArchRow) (f : ArchRow → ArchRow)
    (hf : ∀ r, (f r).source_id = r.source_id ∧ (f r).message_id = r.message_id)
    (sid mid : Nat) :
    countKey (db.map f) sid mid = countKey db sid mid := by
  induction db with
  | nil => rfl
  | cons r t ih =>
    have hk : isKey sid mid (f r) = isKey sid mid r := by
      simp [isKey, (hf r).1, (hf r).2]
    simp only [List.map_cons, countKey, List.filter_cons, hk] at ih ⊢
    cases isKey sid mid r <;> simp [ih]

theorem countKey_eq_zero_iff_any (db : List ArchRow) (sid mid : Nat) :
    countKey db sid mid = 0 ↔ db.any (isKey sid mid) = false := by
  constructor
  · intro h
    cases ha : db.any (isKey sid mid) with
    | false => rfl
    | true =>
      have := (countKey_pos_iff_any db sid mid).mpr ha
      omega
  · intro h
    by_contra hne
    have := (countKey_pos_iff_any db sid mid).mp (Nat.pos_of_ne_zero hne)
    simp [h] at this

theorem countKey_singleton (r : ArchRow) (sid mid : Nat) :
    countKey [r] sid mid = if isKey sid mid r then 1 else 0 := by
  cases h : isKey sid mid r <;> simp [countKey, List.filter, h]

theorem isKey_mkArchRow (m : Message) (sid now : Nat) (mt : String) (fid : Option String) :
    isKey sid m.message_id (mkArchRow m sid mt fid now) = true := by
  simp [isKey, mkArchRow]

theorem archive_message_insert (m : Message) (sid now : Nat) (db : List ArchRow)
    (mt : String) (fid : Option String)
    (hmedia : get_media_info m = some (mt, fid))
    (hnew : db.any (isKey sid m.message_id) = false) :
    archive_message m sid now db = db ++ [mkArchRow m sid mt fid now] := by
  simp [archive_message, hmedia, hnew]

theorem archive_message_exists_update (m : Message) (sid now : Nat) (db : List ArchRow)
    (mt : String) (fid : Option String)
    (hmedia : get_media_info m = some (mt, fid))
    (hex : db.any (isKey sid m.message_id) = true) :
    archive_message m sid now db =
      db.map (fun r => if isKey sid m.message_id r then mkArchRow m sid mt fid now else r) := by
  simp only [archive_message, hmedia, hex, if_true]
  refine List.map_congr_left (fun r _ => ?_)
  by_cases hk : isKey sid m.message_id r = true
  · obtain ⟨h1, h2⟩ : r.source_id = sid ∧ r.message_id = m.message_id := by
      simpa [isKey] using hk
    simp only [hk, if_true]
    cases r
    simp_all [mkArchRow]
  · simp only [Bool.not_eq_true] at hk
    simp [hk]

theorem process_message_eq_archive (m : Message) (sources : List Source) (s : Source)
    (now : Nat) (db : List ArchRow)
    (hfind : find_source m.chat_id sources = some s)
    (htype : is_message_type_allowed m s.filter_config = true)
    (htopic : (s.type == "topic_group" && m.is_topic_message
        && !(is_topic_allowed m.message_thread_id s)) = false)
    (hkw : passes_keyword_filter m s.filter_config = true) :
    process_message m sources now db = archive_message m s.id now db := by
  simp [process_message, hfind, htype, htopic, hkw]

/-! ### Claim theorems -/

/-- C1: for a source with every content-kind filter enabled and no keyword or
topic restriction, processing an inbound message from the source's chat
archives it exactly once per external message id: the processed archive
holds exactly one row with key `(source id, message id)` and stays
duplicate-free; a fresh key inserts exactly the computed row, an existing
key updates the row in place (same table length, mutable fields and archival
timestamp refreshed from the message), and re-processing never grows the
table. -/
theorem c1_archival_idempotent_upsert
    (m : Message) (s : Source) (sources : List Source) (db : List ArchRow) (now now2 : Nat)
    (mt : String) (fid : Option String)
    (hfind : find_source m.chat_id sources = some s)
    (hkinds : ∀ key, s.filter_config.get key true = true)
    (hkw : s.filter_config.keywords = [])
    (htopic : s.type ≠ "topic_group" ∨ s.topics_config = some [TopicEntry.all])
    (hmedia : get_media_info m = some (mt, fid))
    (hnodup : noDupKeys db) :
    countKey (process_message m sources now db) s.id m.message_id = 1
    ∧ noDupKeys (process_message m sources now db)
    ∧ (countKey db s.id m.message_id = 0 →
        process_message m sources now db = db ++ [mkArchRow m s.id mt fid now])
    ∧ (0 < countKey db s.id m.message_id →
        (process_message m sources now db).length = db.length
        ∧ ∀ r ∈ process_message m sources now db,
            r.source_id = s.id → r.message_id = m.message_id →
            r = mkArchRow m s.id mt fid now)
    ∧ (process_message m sources now2 (process_message m sources now db)).length
        = (process_message m sources now db).length := by
  have htyOK : is_message_type_allowed m s.filter_config = true := by
    rw [is_message_type_allowed_eq]; exact hkinds _
  have htcOK : (s.type == "topic_group" && m.is_topic_message
      && !(is_topic_allowed m.message_thread_id s)) = false := by
    rcases htopic with h | h
    · have hb : (s.type == "topic_group") = false := beq_eq_false_iff_ne.mpr h
      simp [hb]
    · have hb : is_topic_allowed m.message_thread_id s = true := by
        simp [is_topic_allowed, h]
      simp [hb]
  have hkwOK : passes_keyword_filter m s.filter_config = true := by
    simp [passes_keyword_filter, hkw]
  have hproc : ∀ t adb, process_message m sources t adb = archive_message m s.id t adb :=
    fun t adb => process_message_eq_archive m sources s t adb hfind htyOK htcOK hkwOK
  have hupd : ∀ t adb, adb.any (isKey s.id m.message_id) = true →
      archive_message m s.id t adb =
        adb.map (fun r => if isKey s.id m.message_id r then mkArchRow m s.id mt fid t else r) :=
    fun t adb h => archive_message_exists_update m s.id t adb mt fid hmedia h
  have hfpres : ∀ (t : Nat) (r : ArchRow),
      ((if isKey s.id m.message_id r then mkArchRow m s.id mt fid t else r).source_id
        = r.source_id)
      ∧ ((if isKey s.id m.message_id r then mkArchRow m s.id mt fid t else r).message_id
        = r.message_id) := by
    intro t r
    by_cases hk : isKey s.id m.message_id r = true
    · obtain ⟨h1, h2⟩ : r.source_id = s.id ∧ r.message_id = m.message_id := by
        simpa [isKey] using hk
      simp [hk, mkArchRow, h1, h2]
    · simp only [Bool.not_eq_true] at hk
      simp [hk]
  cases hany : db.any (isKey s.id m.message_id) with
  | false =>
    have hc0 : countKey db s.id m.message_id = 0 := (countKey_eq_zero_iff_any db _ _).mpr hany
    have harc : process_message m sources now db = db ++ [mkArchRow m s.id mt fid now] := by
      rw [hproc, archive_message_insert m s.id now db mt fid hmedia hany]
    have hcnt1 : countKey (process_message m sources now db) s.id m.message_id = 1 := by
      rw [harc, countKey_append, hc0, countKey_singleton, isKey_mkArchRow]
      simp
    refine ⟨hcnt1, ?_, fun _ => harc, ?_, ?_⟩
    · intro sid mid
      rw [harc, countKey_append, countKey_singleton]
      by_cases hk : isKey sid mid (mkArchRow m s.id mt fid now) = true
      · obtain ⟨h1, h2⟩ : s.id = sid ∧ m.message_id = mid := by
          simpa [isKey, mkArchRow] using hk
        subst h1; subst h2
        simp [hk, hc0]
      · simp only [Bool.not_eq_true] at hk
        simp [hk, hnodup sid mid]
    · intro hpos; omega
    · have hany2 : (process_message m sources now db).any (isKey s.id m.message_id) = true :=
        (countKey_pos_iff_any _ _ _).mp (by omega)
      rw [hproc now2, hupd now2 _ hany2, List.length_map]
  | true =>
    have harc : process_message m sources now db =
        db.map (fun r => if isKey s.id m.message_id r then mkArchRow m s.id mt fid now else r) := by
      rw [hproc, hupd now db hany]
    have hcounts : ∀ sid mid,
        countKey (process_message m sources now db) sid mid = countKey db sid mid := by
      intro sid mid
      rw [harc]
      exact countKey_map_key_preserving db _ (hfpres now) sid mid
    have hpos : 0 < countKey db s.id m.message_id := (countKey_pos_iff_any _ _ _).mpr hany
    have hcnt1 : countKey (process_message m sources now db) s.id m.message_id = 1 := by
      have := hnodup s.id m.message_id
      rw [hcounts]
      omega
    refine ⟨hcnt1, ?_, ?_, ?_, ?_⟩
    · intro sid mid; rw [hcounts]; exact hnodup sid mid
    · intro h0; omega
    · intro _
      constructor
      · rw [harc, List.length_map]
      · intro r hr hsid hmid
        rw [harc] at hr
        obtain ⟨r0, _, hr0⟩ := List.mem_map.mp hr
        by_cases hk : isKey s.id m.message_id r0 = true
        · rw [if_pos hk] at hr0; exact hr0.symm
        · rw [if_neg (by simp [hk])] at hr0
          subst hr0
          have hkey : isKey s.id m.message_id r0 = true := by simp [isKey, hsid, hmid]
          exact absurd hkey hk
    · have hany2 : (process_message m sources now db).any (isKey s.id m.message_id) = true :=
        (countKey_pos_iff_any _ _ _).mp (by omega)
      rw [hproc now2, hupd now2 _ hany2, List.length_map]

theorem containsKeywordCI_iff (text kw : String) :
    containsKeywordCI text kw ↔ containsSub (lowerStr kw) (lowerStr text) = true :=
  (containsSub_iff _ _).symm

/-- C2: for a source with a non-empty keyword list (of non-empty keywords, as
the wizard's keyword parser guarantees), a message passes the keyword filter
iff its text-or-caption contains at least one keyword as a case-insensitive
substring; with an empty keyword list every message passes. -/
theorem c2_keyword_filter (fc : FilterConfig) (m : Message)
    (hk : ∀ k ∈ fc.keywords, k ≠ "") :
    passes_keyword_filter m fc = true ↔
      (fc.keywords = [] ∨ ∃ k ∈ fc.keywords, containsKeywordCI (get_message_text m) k) := by
  simp only [passes_keyword_filter]
  by_cases hemp : fc.keywords.isEmpty = true
  · have he : fc.keywords = [] := by simpa using hemp
    simp [hemp, he]
  · have hne : fc.keywords ≠ [] := by simpa using hemp
    rw [if_neg hemp]
    cases htxt : (get_message_text m == "") with
    | true =>
      have he : get_message_text m = "" := by simpa using htxt
      have hrhs : ¬ ∃ k ∈ fc.keywords, containsKeywordCI (get_message_text m) k := by
        rintro ⟨k, hkm, p, t, hpt⟩
        rw [he] at hpt
        have h0 : p ++ (lowerStr k ++ t) = [] := by simpa [lowerStr] using hpt
        rcases List.append_eq_nil.mp h0 with ⟨_, h2⟩
        rcases List.append_eq_nil.mp h2 with ⟨h3, _⟩
        have hdata : k.data = [] := by simpa [lowerStr] using h3
        have hkempty : k = "" := by
          cases k
          simp only at hdata
          simp [hdata]
        exact hk k hkm hkempty
      simp [htxt, hne, hrhs]
    | false =>
      rw [if_neg (by simp [htxt])]
      rw [List.any_eq_true]
      constructor
      · rintro ⟨k, hkm, hcs⟩
        exact Or.inr ⟨k, hkm, (containsKeywordCI_iff _ _).mpr hcs⟩
      · rintro (h | ⟨k, hkm, hc⟩)
        · exact absurd h hne
        · exact ⟨k, hkm, (containsKeywordCI_iff _ _).mp hc⟩

/-- C2 witness: with keyword list `["foo","bar"]`, the message
`"contains FOO"` passes the filter and `"nothing here"` does not. -/
theorem c2_witness :
    passes_keyword_filter (textMsg 6 1 "contains FOO") fcFooBar = true
    ∧ passes_keyword_filter (textMsg 6 2 "nothing here") fcFooBar = false := by
  constructor
  · exact (c2_keyword_filter fcFooBar (textMsg 6 1 "contains FOO") (by decide)).mpr
      (Or.inr ⟨"foo", by decide, "contains ".data, [], by decide⟩)
  · have h := c2_keyword_filter fcFooBar (textMsg 6 2 "nothing here") (by decide)
    cases hp : passes_keyword_filter (textMsg 6 2 "nothing here") fcFooBar with
    | false => rfl
    | true =>
      rcases h.mp hp with he | ⟨k, hkm, hc⟩
      · exact absurd he (by decide)
      · rw [containsKeywordCI_iff] at hc
        have hk2 : k = "foo" ∨ k = "bar" := by simpa [fcFooBar] using hkm
        rcases hk2 with rfl | rfl
        · exact absurd hc (by decide)
        · exact absurd hc (by decide)

/-- C3: for a topic-group source and a message inside a topic thread, a
disallowed topic means the message is discarded; with a stored non-empty
allow-list the topic check passes iff the list holds the `"all"` sentinel or
the message's topic id; the `"all"` sentinel always passes; and when the
topic check (and the other filters) pass, processing reaches the archive
write. -/
theorem c3_topic_allow_list
    (m : Message) (s : Source) (sources : List Source) (db : List ArchRow) (now : Nat)
    (hfind : find_source m.chat_id sources = some s)
    (htype : s.type = "topic_group")
    (histopic : m.is_topic_message = true) :
    (is_topic_allowed m.message_thread_id s = false →
        process_message m sources now db = db)
    ∧ (∀ tc, s.topics_config = some tc → tc ≠ [] →
        (is_topic_allowed m.message_thread_id s = true ↔
          TopicEntry.all ∈ tc ∨ ∃ t, m.message_thread_id = some t ∧ TopicEntry.id t ∈ tc))
    ∧ (s.topics_config = some [TopicEntry.all] →
        is_topic_allowed m.message_thread_id s = true)
    ∧ (is_topic_allowed m.message_thread_id s = true →
        is_message_type_allowed m s.filter_config = true →
        passes_keyword_filter m s.filter_config = true →
        process_message m sources now db = archive_message m s.id now db) := by
  refine ⟨?_, ?_, ?_, ?_⟩
  · intro hta
    cases hmt : is_message_type_allowed m s.filter_config with
    | false => simp [process_message, hfind, hmt]
    | true =>
      have hcond : (s.type == "topic_group" && m.is_topic_message
          && !(is_topic_allowed m.message_thread_id s)) = true := by
        simp [htype, histopic, hta]
      simp [process_message, hfind, hmt, hcond]
  · intro tc htc hne
    have hie : tc.isEmpty = false := by
      cases tc with
      | nil => exact absurd rfl hne
      | cons a t => rfl
    cases hall : tc.contains TopicEntry.all with
    | true =>
      have hmem : TopicEntry.all ∈ tc := by
        simpa using hall
      simp [is_topic_allowed, htc, hie, hall, hmem]
    | false =>
      have hnmem : TopicEntry.all ∉ tc := by
        simpa using hall
      cases hmti : m.message_thread_id with
      | none => simp [is_topic_allowed, htc, hie, hall, hnmem]
      | some t => simp [is_topic_allowed, htc, hie, hall, hnmem]
  · intro h
    simp [is_topic_allowed, h]
  · intro hta hmt hkw
    refine process_message_eq_archive m sources s now db hfind hmt ?_ hkw
    simp [hta]

/-- C3 witness: with allow-list `[1, 2]` a message in topic 3 is discarded
and a message in topic 1 is archived; the `"all"` sentinel admits topic 99. -/
theorem c3_witness :
    process_message (topicMsg 7 50 3) [srcTopics] 9 [] = []
    ∧ process_message (topicMsg 7 51 1) [srcTopics] 9 []
        = [mkArchRow (topicMsg 7 51 1) 3 "text" none 9]
    ∧ is_topic_allowed (some 99) srcTopicsAll = true := by
  refine ⟨?_, ?_, ?_⟩
  · exact (c3_topic_allow_list (topicMsg 7 50 3) srcTopics [srcTopics] [] 9
      (by decide) rfl rfl).1 (by decide)
  · have h := (c3_topic_allow_list (topicMsg 7 51 1) srcTopics [srcTopics] [] 9
      (by decide) rfl rfl).2.2.2 (by decide) (by decide) (by decide)
    rw [h]
    decide
  · exact (c3_topic_allow_list (topicMsg 8 52 99) srcTopicsAll [srcTopicsAll] [] 9
      (by decide) rfl rfl).2.2.1 rfl

/-- C4: a search returns exactly the archived rows of the chosen source
satisfying the conjunction of active predicates (as a permutation, i.e. with
multiplicity), ordered by original message timestamp descending; with no
filters active the predicate degenerates to the source-id restriction, so
all of the source's rows come back, newest first. -/
theorem c4_search_query_contract (sid : Nat) (f : Filters) (db : List ArchRow) :
    List.Perm (search_messages sid f db) (db.filter (rowMatches sid f))
    ∧ List.Pairwise dateGe (search_messages sid f db)
    ∧ List.Perm (search_messages sid emptyFilters db)
        (db.filter (fun r => r.source_id == sid))
    ∧ (∀ r, rowMatches sid emptyFilters r = (r.source_id == sid)) := by
  have hmatch : ∀ r, rowMatches sid emptyFilters r = (r.source_id == sid) := by
    intro r
    simp [rowMatches, emptyFilters, senderIdActive, senderNameActive]
  refine ⟨List.perm_insertionSort dateGe _, List.sorted_insertionSort dateGe _, ?_, hmatch⟩
  have heq : db.filter (rowMatches sid emptyFilters)
      = db.filter (fun r => r.source_id == sid) :=
    List.filter_congr (fun r _ => hmatch r)
  show List.Perm (List.insertionSort dateGe (db.filter (rowMatches sid emptyFilters))) _
  rw [heq]
  exact List.perm_insertionSort dateGe _

/-- C5: with `date_from = T1` and `date_to = T2` the search returns exactly
the source's rows whose original timestamp lies in the closed interval
`[T1, T2]`; a single bound is applied alone, inclusively. -/
theorem c5_date_bounds_inclusive (sid T1 T2 : Nat) (db : List ArchRow) (r : ArchRow) :
    (r ∈ search_messages sid
        { emptyFilters with date_from := some T1, date_to := some T2 } db ↔
      r ∈ db ∧ r.source_id = sid ∧ T1 ≤ r.message_date ∧ r.message_date ≤ T2)
    ∧ (r ∈ search_messages sid { emptyFilters with date_from := some T1 } db ↔
      r ∈ db ∧ r.source_id = sid ∧ T1 ≤ r.message_date)
    ∧ (r ∈ search_messages sid { emptyFilters with date_to := some T2 } db ↔
      r ∈ db ∧ r.source_id = sid ∧ r.message_date ≤ T2) := by
  refine ⟨?_, ?_, ?_⟩ <;>
    simp [search_messages, List.mem_insertionSort, List.mem_filter, rowMatches,
      emptyFilters, senderIdActive, senderNameActive, and_assoc]

/-- C6 (code bug): `show_search_results` — the display step the claim
describes — raises `AttributeError` on every call before any pagination
code runs (`bot = telebot.TeleBot.__self__`, search_manager.py:437), so the
program never computes, clamps or displays pages.  The dead pagination code
below the raise — the claim's evident intent, which the spec was written
from — does satisfy the claimed contract: for a non-empty result set of
size `N` held in the per-user state and any requested page (too small or
too large included), page size 10, `ceil(N/10)` total pages (characterized
by the two inequalities), page clamped into `[1, total]`, and exactly the
items at positions `(p-1)*10+1 … min(p*10, N)` of the held result list. -/
theorem c6_pagination_clamp (results : List ArchRow) (page : Int)
    (hne : results ≠ []) :
    show_search_results results page = Except.error PyError.attributeError
    ∧ ∃ pv, show_search_results_unreachable results page = some pv
      ∧ pv.total_pages = (results.length + 9) / 10
      ∧ 10 * (pv.total_pages - 1) < results.length
      ∧ results.length ≤ 10 * pv.total_pages
      ∧ 1 ≤ pv.page ∧ pv.page ≤ (pv.total_pages : Int)
      ∧ pv.items.length
          = min (pv.page.toNat * 10) results.length - (pv.page.toNat - 1) * 10
      ∧ ∀ i, i < pv.items.length →
          pv.items[i]? = results[(pv.page.toNat - 1) * 10 + i]? := by
  refine ⟨rfl, ?_⟩
  have hfalse : results.isEmpty = false := by
    cases results with
    | nil => exact absurd rfl hne
    | cons a t => rfl
  have hNpos : 0 < results.length := List.length_pos.mpr hne
  simp only [show_search_results_unreachable, hfalse, Bool.false_eq_true, if_false]
  refine ⟨_, rfl, ?_⟩
  set N := results.length with hN
  set tp := (N + 10 - 1) / 10 with htp
  set p : Int := max 1 (min page (Int.ofNat tp)) with hp
  set start := (p - 1).toNat * 10 with hstart
  set stop := min (start + 10) N with hstop
  have htp1 : 1 ≤ tp := by omega
  have hp1 : 1 ≤ p := le_max_left 1 _
  have hptp : p ≤ (tp : Int) := by
    refine max_le ?_ (min_le_right page _)
    exact_mod_cast htp1
  have hptn1 : 1 ≤ p.toNat := by omega
  have hptntp : p.toNat ≤ tp := by omega
  have hbound : 10 * (tp - 1) < N ∧ N ≤ 10 * tp := by omega
  have hstartN : start ≤ N := by
    have : start ≤ (tp - 1) * 10 := by
      rw [hstart]
      have : (p - 1).toNat ≤ tp - 1 := by omega
      omega
    omega
  have hlen : ((results.drop start).take (stop - start)).length = stop - start := by
    rw [List.length_take, List.length_drop]
    omega
  have hpt : (p - 1).toNat = p.toNat - 1 := by omega
  refine ⟨rfl, ?_, ?_, hp1, hptp, ?_, ?_⟩
  · simpa using hbound.1
  · simpa using hbound.2
  · show ((results.drop start).take (stop - start)).length
      = min (p.toNat * 10) N - (p.toNat - 1) * 10
    rw [hlen]
    omega
  · intro i hi
    rw [hlen] at hi
    show ((results.drop start).take (stop - start))[i]? = results[(p.toNat - 1) * 10 + i]?
    rw [List.getElem?_take, if_pos hi, List.getElem?_drop]
    have harg : start + i = (p.toNat - 1) * 10 + i := by
      rw [hstart, hpt]
    rw [harg]

/-- C6 witness: the display step faults on a concrete 12-row result set with
requested page 5, while the dead pagination code below the raise would have
produced 2 pages, clamped to page 2, showing the two items at positions 11
and 12. -/
theorem c6_witness :
    show_search_results (rowFix 1 1 1 :: List.map (fun i => rowFix 1 i i) (List.range 11)) 5
      = Except.error PyError.attributeError
    ∧ (rowFix 1 1 1 :: List.map (fun i => rowFix 1 i i) (List.range 11)) ≠ []
    ∧ ∃ pv, show_search_results_unreachable
        (rowFix 1 1 1 :: List.map (fun i => rowFix 1 i i) (List.range 11)) 5 = some pv
      ∧ pv.total_pages = 2 ∧ pv.page = 2 ∧ pv.items.length = 2 := by
  obtain ⟨herr, pv, heq, htp, _, _, _, _, hlen, _⟩ :=
    c6_pagination_clamp
      (rowFix 1 1 1 :: List.map (fun i => rowFix 1 i i) (List.range 11)) 5 (by decide)
  refine ⟨herr, by decide, pv, heq, ?_, ?_, ?_⟩
  · simpa using htp
  · have : show_search_results_unreachable
        (rowFix 1 1 1 :: List.map (fun i => rowFix 1 i i) (List.range 11)) 5
        = some ⟨2, 2, [rowFix 1 9 9, rowFix 1 10 10]⟩ := by decide
    rw [this] at heq
    cases heq
    rfl
  · have : show_search_results_unreachable
        (rowFix 1 1 1 :: List.map (fun i => rowFix 1 i i) (List.range 11)) 5
        = some ⟨2, 2, [rowFix 1 9 9, rowFix 1 10 10]⟩ := by decide
    rw [this] at heq
    cases heq
    rfl

/-- C7 (code bug): `toggle_user_permission` — the grant/revoke step the
claim describes — raises `AttributeError` on every call before touching the
permissions table (`bot = telebot.TeleBot.__self__`, user_manager.py:424;
its dispatch route faults the same way), so toggling never creates or flips
a Permission row: the table is left unchanged and, with no prior row, the
source never appears in the non-admin user's accessible list.  The dead
toggle logic below the raise — the claim's evident intent, which the spec
was written from — does satisfy the claimed contract against the live
accessible-source query: first toggle grants and the source appears, second
toggle revokes and it disappears; and for any admin the accessible list is
all active sources, whatever the permissions table holds. -/
theorem c7_permission_toggle (uid : Int) (u : BotUser) (users : List BotUser)
    (perms : List Perm) (sources : List Source) (s : Source)
    (hu : users.find? (fun v => v.user_id == uid) = some u)
    (hnadmin : u.is_admin = false)
    (hs : s ∈ sources) (hactive : s.is_active = true)
    (hnoperm : ∀ q ∈ perms, permKey uid s.id q = false) :
    toggle_user_permission uid s.id perms = Except.error PyError.attributeError
    ∧ s ∉ get_accessible_sources uid users perms sources
    ∧ s ∈ get_accessible_sources uid users
        (toggle_user_permission_unreachable uid s.id perms) sources
    ∧ s ∉ get_accessible_sources uid users
        (toggle_user_permission_unreachable uid s.id
          (toggle_user_permission_unreachable uid s.id perms)) sources
    ∧ ∀ (aid : Int) (a : BotUser) (perms' : List Perm),
        users.find? (fun v => v.user_id == aid) = some a → a.is_admin = true →
        get_accessible_sources aid users perms' sources
          = sources.filter (fun t => t.is_active) := by
  have hfind0 : perms.find? (permKey uid s.id) = none :=
    List.find?_eq_none.mpr (fun q hq => by simp [hnoperm q hq])
  have hperm1 : toggle_user_permission_unreachable uid s.id perms
      = perms ++ [⟨uid, s.id, true⟩] := by
    simp [toggle_user_permission_unreachable, hfind0]
  have hkey1 : permKey uid s.id (⟨uid, s.id, true⟩ : Perm) = true := by
    simp [permKey]
  have hfind1 : (perms ++ [(⟨uid, s.id, true⟩ : Perm)]).find? (permKey uid s.id)
      = some (⟨uid, s.id, true⟩ : Perm) := by
    rw [List.find?_append, hfind0]
    simp [hkey1]
  have hperm2 : toggle_user_permission_unreachable uid s.id
        (toggle_user_permission_unreachable uid s.id perms)
      = (perms ++ [(⟨uid, s.id, true⟩ : Perm)]).map
          (fun q => if permKey uid s.id q then { q with can_search := false } else q) := by
    rw [hperm1]
    simp only [toggle_user_permission_unreachable, hfind1, Bool.not_true]
  refine ⟨rfl, ?_, ?_, ?_, ?_⟩
  · intro hmem
    simp only [get_accessible_sources, hu, hnadmin, if_false] at hmem
    have hpred := (List.mem_filter.mp hmem).2
    rw [Bool.and_eq_true, List.any_eq_true] at hpred
    obtain ⟨_, q, hq, hqq⟩ := hpred
    have hk0 : permKey uid s.id q = false := hnoperm q hq
    simp [hk0] at hqq
  · rw [hperm1]
    simp only [get_accessible_sources, hu, hnadmin, if_false]
    refine List.mem_filter.mpr ⟨hs, ?_⟩
    simp [hactive, List.any_append, hkey1]
  · rw [hperm2]
    intro hmem
    simp only [get_accessible_sources, hu, hnadmin, if_false] at hmem
    have hpred := (List.mem_filter.mp hmem).2
    rw [Bool.and_eq_true, List.any_eq_true] at hpred
    obtain ⟨_, q, hq, hqq⟩ := hpred
    obtain ⟨q0, hq0, rfl⟩ := List.mem_map.mp hq
    rcases List.mem_append.mp hq0 with hin | hone
    · have hk0 : permKey uid s.id q0 = false := hnoperm q0 hin
      rw [if_neg (by simp [hk0])] at hqq
      simp [hk0] at hqq
    · have : q0 = ⟨uid, s.id, true⟩ := by simpa using hone
      subst this
      rw [if_pos hkey1] at hqq
      simp [permKey] at hqq
  · intro aid a perms' ha hadm
    simp [get_accessible_sources, ha, hadm]

/-- C7 witness: toggling user 100's permission on the active source faults
with `AttributeError` and the source stays inaccessible; the dead toggle
logic would have granted then revoked access; the admin (user 1) sees every
active source with an empty permissions table. -/
theorem c7_witness :
    toggle_user_permission 100 1 [] = Except.error PyError.attributeError
    ∧ srcChan ∉ get_accessible_sources 100 [⟨100, "u", false⟩, ⟨1, "a", true⟩]
        [] [srcChan]
    ∧ srcChan ∈ get_accessible_sources 100 [⟨100, "u", false⟩, ⟨1, "a", true⟩]
        (toggle_user_permission_unreachable 100 1 []) [srcChan]
    ∧ srcChan ∉ get_accessible_sources 100 [⟨100, "u", false⟩, ⟨1, "a", true⟩]
        (toggle_user_permission_unreachable 100 1
          (toggle_user_permission_unreachable 100 1 [])) [srcChan]
    ∧ get_accessible_sources 1 [⟨100, "u", false⟩, ⟨1, "a", true⟩] [] [srcChan]
        = [srcChan] := by
  have h := c7_permission_toggle 100 ⟨100, "u", false⟩
    [⟨100, "u", false⟩, ⟨1, "a", true⟩] [] [srcChan] srcChan
    (by decide) rfl (by simp) rfl (fun q hq => absurd hq (List.not_mem_nil q))
  refine ⟨h.1, h.2.1, h.2.2.1, h.2.2.2.1, ?_⟩
  rw [h.2.2.2.2 1 ⟨1, "a", true⟩ [] (by decide) rfl]
  decide

/-- C8: no wizard event other than the terminal save writes to the sources
store; a text input failing its step's validation grammar (link format,
title length in `[3,100]`, topic-id list) leaves both the step and the
accumulator exactly as they were (the same handler is re-registered); and
the save event appends exactly the one row built from the accumulated
fields. -/
theorem c8_wizard_writes_only_on_save (st : WizardState) (db : List Source) (nextId : Nat) :
    (∀ s, (wizard_transition st db nextId (WEvent.textInput s)).2 = db)
    ∧ (∀ key, (wizard_transition st db nextId (WEvent.toggleFilter key)).2 = db)
    ∧ (∀ s, (wizard_transition st db nextId (WEvent.setKeywords s)).2 = db)
    ∧ (∀ s, st.step = WStep.request_source_link →
        parse_source_link (trimStr s) = none →
        wizard_transition st db nextId (WEvent.textInput s) = (some st, db))
    ∧ (∀ s, st.step = WStep.request_source_title →
        validTitle (trimStr s) = false →
        wizard_transition st db nextId (WEvent.textInput s) = (some st, db))
    ∧ (∀ s, st.step = WStep.request_topics →
        parse_topics (lowerString (trimStr s)) = none →
        wizard_transition st db nextId (WEvent.textInput s) = (some st, db))
    ∧ (∀ src, save_archive_settings st.source_data nextId = some src →
        wizard_transition st db nextId WEvent.saveSettings = (none, db ++ [src])) := by
  obtain ⟨step, sd⟩ := st
  refine ⟨?_, ?_, ?_, ?_, ?_, ?_, ?_⟩
  · intro s
    cases step <;> simp only [wizard_transition] <;> (repeat' split) <;> rfl
  · intro key
    simp only [wizard_transition]
    (repeat' split) <;> rfl
  · intro s
    simp only [wizard_transition]
    (repeat' split) <;> rfl
  · intro s hstep hparse
    replace hstep : step = WStep.request_source_link := hstep
    subst hstep
    simp [wizard_transition, hparse]
  · intro s hstep hval
    replace hstep : step = WStep.request_source_title := hstep
    subst hstep
    simp [wizard_transition, hval]
  · intro s hstep hparse
    replace hstep : step = WStep.request_topics := hstep
    subst hstep
    simp [wizard_transition, hparse]
  · intro src hsave
    replace hsave : save_archive_settings sd nextId = some src := hsave
    simp [wizard_transition, hsave]

/-- C8 witness: a bad link, a too-short title and an invalid topic list each
re-prompt the same step with the accumulator and the sources table
untouched; the save event on a complete accumulator appends exactly one
row. -/
theorem c8_witness :
    wizard_transition ⟨WStep.request_source_link, sdEmpty⟩ [srcChan] 9
        (WEvent.textInput "bogus")
      = (some ⟨WStep.request_source_link, sdEmpty⟩, [srcChan])
    ∧ wizard_transition ⟨WStep.request_source_title, sdEmpty⟩ [srcChan] 9
        (WEvent.textInput "ab")
      = (some ⟨WStep.request_source_title, sdEmpty⟩, [srcChan])
    ∧ wizard_transition ⟨WStep.request_topics, sdEmpty⟩ [srcChan] 9
        (WEvent.textInput "x,y")
      = (some ⟨WStep.request_topics, sdEmpty⟩, [srcChan])
    ∧ wizard_transition ⟨WStep.select_filters, sdComplete⟩ [srcChan] 9 WEvent.saveSettings
      = (none, [srcChan] ++
          [{ id := 9, type := "channel", chat_id := some 5, chat_title := "News"
             chat_username := "", is_active := true
             filter_config := defaultFilterConfig, topics_config := none }]) := by
  refine ⟨?_, ?_, ?_, ?_⟩
  · exact (c8_wizard_writes_only_on_save ⟨WStep.request_source_link, sdEmpty⟩
      [srcChan] 9).2.2.2.1 "bogus" rfl (by decide)
  · exact (c8_wizard_writes_only_on_save ⟨WStep.request_source_title, sdEmpty⟩
      [srcChan] 9).2.2.2.2.1 "ab" rfl (by decide)
  · exact (c8_wizard_writes_only_on_save ⟨WStep.request_topics, sdEmpty⟩
      [srcChan] 9).2.2.2.2.2.1 "x,y" rfl (by decide)
  · exact (c8_wizard_writes_only_on_save ⟨WStep.select_filters, sdComplete⟩
      [srcChan] 9).2.2.2.2.2.2 _ (by decide)

theorem mem_of_getLast?_photo :
    ∀ (l : List PhotoSize) (p : PhotoSize), l.getLast? = some p → p ∈ l := by
  intro l
  induction l with
  | nil => intro p h; simp at h
  | cons a t ih =>
    intro p h
    cases t with
    | nil =>
      have : a = p := by simpa using h
      subst this
      exact List.mem_cons_self a []
    | cons b t2 =>
      rw [List.getLast?_cons_cons] at h
      exact List.mem_cons_of_mem a (ih p h)

theorem getLast_is_max (f : PhotoSize → Nat) :
    ∀ (l : List PhotoSize) (p : PhotoSize), l.getLast? = some p →
      List.Pairwise (fun a b => f a ≤ f b) l → ∀ q ∈ l, f q ≤ f p := by
  intro l
  induction l with
  | nil => intro p hl; simp at hl
  | cons a t ih =>
    intro p hl hs q hq
    obtain ⟨ha, hs'⟩ := List.pairwise_cons.mp hs
    cases t with
    | nil =>
      have hpa : a = p := by simpa using hl
      subst hpa
      have hqa : q = a := by simpa using hq
      subst hqa
      exact Nat.le_refl _
    | cons b t2 =>
      rw [List.getLast?_cons_cons] at hl
      rcases List.mem_cons.mp hq with rfl | hq'
      · exact ha p (mem_of_getLast?_photo _ p hl)
      · exact ih p hl hs' q hq'

/-- C9: an archived message's content-kind tag lies in the fixed
eight-element enumeration, its media reference token is present iff the
kind is not `text`, for a photo the token is the last (and, when the size
array is sorted ascending as the transport delivers it, largest-resolution)
variant's id, and the inserted archive row stores exactly that tag and
token. -/
theorem c9_media_invariants (m : Message) (mt : String) (fid : Option String)
    (hmedia : get_media_info m = some (mt, fid)) :
    (mt = "text" ∨ mt = "photo" ∨ mt = "video" ∨ mt = "document" ∨ mt = "audio"
      ∨ mt = "voice" ∨ mt = "sticker" ∨ mt = "animation")
    ∧ (fid.isSome = true ↔ mt ≠ "text")
    ∧ (m.content_type = ContentType.photo →
        ∃ p, m.photo.getLast? = some p ∧ fid = some p.file_id
          ∧ (List.Pairwise (fun a b : PhotoSize =>
                a.width * a.height ≤ b.width * b.height) m.photo →
              ∀ q ∈ m.photo, q.width * q.height ≤ p.width * p.height))
    ∧ ∀ (sid now : Nat) (db : List ArchRow),
        db.any (isKey sid m.message_id) = false →
        archive_message m sid now db = db ++ [mkArchRow m sid mt fid now]
        ∧ (mkArchRow m sid mt fid now).media_type = mt
        ∧ (mkArchRow m sid mt fid now).media_file_id = fid := by
  obtain ⟨c1, c2, mid, ct, tx, cap, itm, mti, dt, fu, ph, v1, d1, a1, vo1, s1, an1⟩ := m
  dsimp only
  have hlast : ∀ (sid now : Nat) (db : List ArchRow),
      db.any (isKey sid mid) = false →
      archive_message ⟨c1, c2, mid, ct, tx, cap, itm, mti, dt, fu, ph, v1, d1, a1, vo1, s1, an1⟩
          sid now db
        = db ++ [mkArchRow ⟨c1, c2, mid, ct, tx, cap, itm, mti, dt, fu, ph, v1, d1, a1, vo1, s1, an1⟩
            sid mt fid now]
      ∧ (mkArchRow ⟨c1, c2, mid, ct, tx, cap, itm, mti, dt, fu, ph, v1, d1, a1, vo1, s1, an1⟩
          sid mt fid now).media_type = mt
      ∧ (mkArchRow ⟨c1, c2, mid, ct, tx, cap, itm, mti, dt, fu, ph, v1, d1, a1, vo1, s1, an1⟩
          sid mt fid now).media_file_id = fid := by
    intro sid now db hany
    exact ⟨archive_message_insert _ sid now db _ _ hmedia hany, rfl, rfl⟩
  cases ct with
  | text =>
    have h := hmedia
    simp only [get_media_info, Option.some.injEq, Prod.mk.injEq] at h
    obtain ⟨rfl, rfl⟩ : mt = "text" ∧ fid = none := ⟨h.1.symm, h.2.symm⟩
    exact ⟨Or.inl rfl, by decide, fun hc => by simp at hc, hlast⟩
  | photo =>
    cases hgl : ph.getLast? with
    | none =>
      have h := hmedia
      simp only [get_media_info, hgl] at h
      exact Option.noConfusion h
    | some p =>
      have h := hmedia
      simp only [get_media_info, hgl, Option.some.injEq, Prod.mk.injEq] at h
      obtain ⟨rfl, rfl⟩ : mt = "photo" ∧ fid = some p.file_id := ⟨h.1.symm, h.2.symm⟩
      refine ⟨Or.inr (Or.inl rfl), ⟨fun _ => by decide, fun _ => rfl⟩, ?_, hlast⟩
      intro _
      exact ⟨p, rfl, rfl, fun hs q hq =>
        getLast_is_max (fun a => a.width * a.height) ph p hgl hs q hq⟩
  | video =>
    have h := hmedia
    simp only [get_media_info, Option.some.injEq, Prod.mk.injEq] at h
    obtain ⟨rfl, rfl⟩ : mt = "video" ∧ fid = some v1 := ⟨h.1.symm, h.2.symm⟩
    exact ⟨Or.inr (Or.inr (Or.inl rfl)), ⟨fun _ => by decide, fun _ => rfl⟩, fun hc => by simp at hc, hlast⟩
  | document =>
    have h := hmedia
    simp only [get_media_info, Option.some.injEq, Prod.mk.injEq] at h
    obtain ⟨rfl, rfl⟩ : mt = "document" ∧ fid = some d1 := ⟨h.1.symm, h.2.symm⟩
    exact ⟨Or.inr (Or.inr (Or.inr (Or.inl rfl))), ⟨fun _ => by decide, fun _ => rfl⟩,
      fun hc => by simp at hc, hlast⟩
  | audio =>
    have h := hmedia
    simp only [get_media_info, Option.some.injEq, Prod.mk.injEq] at h
    obtain ⟨rfl, rfl⟩ : mt = "audio" ∧ fid = some a1 := ⟨h.1.symm, h.2.symm⟩
    exact ⟨Or.inr (Or.inr (Or.inr (Or.inr (Or.inl rfl)))), ⟨fun _ => by decide, fun _ => rfl⟩,
      fun hc => by simp at hc, hlast⟩
  | voice =>
    have h := hmedia
    simp only [get_media_info, Option.some.injEq, Prod.mk.injEq] at h
    obtain ⟨rfl, rfl⟩ : mt = "voice" ∧ fid = some vo1 := ⟨h.1.symm, h.2.symm⟩
    exact ⟨Or.inr (Or.inr (Or.inr (Or.inr (Or.inr (Or.inl rfl))))), ⟨fun _ => by decide, fun _ => rfl⟩,
      fun hc => by simp at hc, hlast⟩
  | sticker =>
    have h := hmedia
    simp only [get_media_info, Option.some.injEq, Prod.mk.injEq] at h
    obtain ⟨rfl, rfl⟩ : mt = "sticker" ∧ fid = some s1 := ⟨h.1.symm, h.2.symm⟩
    exact ⟨Or.inr (Or.inr (Or.inr (Or.inr (Or.inr (Or.inr (Or.inl rfl)))))), ⟨fun _ => by decide, fun _ => rfl⟩,
      fun hc => by simp at hc, hlast⟩
  | animation =>
    have h := hmedia
    simp only [get_media_info, Option.some.injEq, Prod.mk.injEq] at h
    obtain ⟨rfl, rfl⟩ : mt = "animation" ∧ fid = some an1 := ⟨h.1.symm, h.2.symm⟩
    exact ⟨Or.inr (Or.inr (Or.inr (Or.inr (Or.inr (Or.inr (Or.inr rfl)))))), ⟨fun _ => by decide, fun _ => rfl⟩,
      fun hc => by simp at hc, hlast⟩

/-- C9 witness: a photo message with two size variants stores kind `photo`
and the largest variant's token, and a text message stores kind `text` with
no token. -/
theorem c9_witness :
    (∃ p, photoMsg.photo.getLast? = some p ∧ some "big" = some p.file_id)
    ∧ archive_message photoMsg 1 3 []
        = [mkArchRow photoMsg 1 "photo" (some "big") 3]
    ∧ (mkArchRow (textMsg 5 61 "hi") 1 "text" none 3).media_file_id = none := by
  have h := c9_media_invariants photoMsg "photo" (some "big") (by decide)
  refine ⟨?_, ?_, ?_⟩
  · obtain ⟨p, hp, hfid, _⟩ := h.2.2.1 rfl
    exact ⟨p, hp, hfid⟩
  · exact (h.2.2.2 1 3 [] rfl).1
  · exact (c9_media_invariants (textMsg 5 61 "hi") "text" none rfl).2.2.2 1 3 [] rfl
      |>.2.2

theorem strStartsWith_isPrefix (s p : String) (h : strStartsWith s p = true) :
    p.data <+: s.data :=
  (prefixMatch_iff _ _).mp h

theorem startsWith_excl (s p q : String) (hp : strStartsWith s p = true)
    (h1 : ¬(p.data <+: q.data)) (h2 : ¬(q.data <+: p.data)) :
    strStartsWith s q = false := by
  cases hq : strStartsWith s q with
  | false => rfl
  | true =>
    rcases List.prefix_or_prefix_of_prefix (strStartsWith_isPrefix s p hp)
      (strStartsWith_isPrefix s q hq) with h | h
    · exact absurd h h1
    · exact absurd h h2

theorem toggle_source_status_id_preserved (sid : Nat) (sources : List Source)
    (s : Source) (hs : s ∈ sources) :
    ∃ s', s' ∈ toggle_source_status sid sources ∧ s'.id = s.id := by
  unfold toggle_source_status
  cases hf : sources.find? (fun t => t.id == sid) with
  | none => exact ⟨s, hs, rfl⟩
  | some s0 =>
    refine ⟨if s.id == sid then { s with is_active := !s0.is_active } else s,
      List.mem_map_of_mem _ hs, ?_⟩
    by_cases h : (s.id == sid) = true
    · simp [h]
    · simp [h]

theorem archive_message_preserves_rows (m : Message) (sid now : Nat)
    (adb : List ArchRow) (r : ArchRow) (hr : r ∈ adb) :
    ∃ r', r' ∈ archive_message m sid now adb
      ∧ r'.source_id = r.source_id ∧ r'.message_id = r.message_id := by
  unfold archive_message
  cases get_media_info m with
  | none => exact ⟨r, hr, rfl, rfl⟩
  | some pr =>
    cases pr with
    | mk mt fid =>
      by_cases hany : adb.any (isKey sid m.message_id) = true
      · simp only [hany, if_true]
        refine ⟨if isKey sid m.message_id r then
            { r with
              sender_id := match m.from_user with | some u => u.id | none => 0
              sender_name := get_sender_name m
              message_text := get_message_text m
              media_type := mt
              media_file_id := fid
              topic_id := m.message_thread_id
              message_date := m.date
              archived_at := now }
          else r, List.mem_map_of_mem _ hr, ?_⟩
        by_cases hk : isKey sid m.message_id r = true
        · simp [hk]
        · simp [hk]
      · simp only [Bool.not_eq_true] at hany
        simp only [hany, Bool.false_eq_true, if_false]
        exact ⟨r, List.mem_append_left _ hr, rfl, rfl⟩

set_option maxHeartbeats 1000000 in
/-- C10: no archive-manager callback ever removes a row from the sources or
archived-messages stores: every callback leaves the archived table
untouched and keeps every source row (by id, deactivation aside); any
payload with the `archive_delete_` prefix — the delete action and its own
`archive_delete_confirm_…` confirmation payload alike — routes to the
confirmation prompt and changes nothing; and the archival pipeline only
ever inserts or updates, preserving every existing archived row's key. -/
theorem c10_no_deletion (data : String) (st : CbState) :
    ((archive_handle_callback data st).db.archived = st.db.archived)
    ∧ (∀ s ∈ st.db.sources,
        ∃ s', s' ∈ (archive_handle_callback data st).db.sources ∧ s'.id = s.id)
    ∧ (strStartsWith data "archive_delete_" = true →
        archive_handle_callback data st = st)
    ∧ (∀ (m : Message) (sources : List Source) (now : Nat) (adb : List ArchRow),
        ∀ r ∈ adb, ∃ r', r' ∈ process_message m sources now adb
          ∧ r'.source_id = r.source_id ∧ r'.message_id = r.message_id) := by
  refine ⟨?_, ?_, ?_, ?_⟩
  · unfold archive_handle_callback
    dsimp only
    (repeat' split) <;> rfl
  · intro s hs
    unfold archive_handle_callback
    dsimp only
    (repeat' split) <;>
      first
        | exact ⟨s, hs, rfl⟩
        | exact ⟨s, List.mem_append_left _ hs, rfl⟩
        | exact toggle_source_status_id_preserved _ _ s hs
  · intro hdel
    have hv : strStartsWith data "archive_view_" = false :=
      startsWith_excl data _ _ hdel (by decide) (by decide)
    have h1 : strStartsWith data "archive_source_" = false :=
      startsWith_excl data _ _ hdel (by decide) (by decide)
    have h2 : strStartsWith data "archive_filter_" = false :=
      startsWith_excl data _ _ hdel (by decide) (by decide)
    have h3 : strStartsWith data "archive_topic_" = false :=
      startsWith_excl data _ _ hdel (by decide) (by decide)
    have h4 : strStartsWith data "archive_toggle_" = false :=
      startsWith_excl data _ _ hdel (by decide) (by decide)
    have hsv : (data == "archive_save_settings") = false := by
      cases hb : data == "archive_save_settings" with
      | false => rfl
      | true =>
        have : data = "archive_save_settings" := by simpa using hb
        subst this
        exact absurd hdel (by decide)
    unfold archive_handle_callback
    simp only [hv, h1, h2, h3, h4, hsv, hdel, Bool.not_false, Bool.and_true,
      Bool.false_eq_true, if_false, if_true]
    split <;> rfl
  · intro m sources now adb r hr
    cases hfs : find_source m.chat_id sources with
    | none =>
      simp only [process_message, hfs]
      exact ⟨r, hr, rfl, rfl⟩
    | some source =>
      simp only [process_message, hfs]
      (repeat' split) <;>
        first
          | exact ⟨r, hr, rfl, rfl⟩
          | exact archive_message_preserves_rows m source.id now adb r hr

/-- C10 witness: the confirmed-delete payload `archive_delete_confirm_1`
leaves a concrete state with one source and one archived row untouched. -/
theorem c10_witness :
    archive_handle_callback "archive_delete_confirm_1"
        ⟨some ⟨WStep.select_filters, sdComplete⟩, ⟨[srcChan], [rowFix 1 42 100], 2⟩⟩
      = ⟨some ⟨WStep.select_filters, sdComplete⟩, ⟨[srcChan], [rowFix 1 42 100], 2⟩⟩ := by
  exact (c10_no_deletion "archive_delete_confirm_1"
    ⟨some ⟨WStep.select_filters, sdComplete⟩, ⟨[srcChan], [rowFix 1 42 100], 2⟩⟩).2.2.1
    (by decide)

/-- C1 witness: a concrete text message on the unrestricted channel source is
inserted exactly once, and re-processing it does not grow the archive. -/
theorem c1_witness :
    countKey (process_message (textMsg 5 42 "hello") [srcChan] 7 []) 1 42 = 1
    ∧ process_message (textMsg 5 42 "hello") [srcChan] 7 []
        = [mkArchRow (textMsg 5 42 "hello") 1 "text" none 7]
    ∧ (process_message (textMsg 5 42 "hello") [srcChan] 8
          (process_message (textMsg 5 42 "hello") [srcChan] 7 [])).length
        = (process_message (textMsg 5 42 "hello") [srcChan] 7 []).length := by
  have h := c1_archival_idempotent_upsert (textMsg 5 42 "hello") srcChan [srcChan] [] 7 8
    "text" none (by decide) (fun _ => rfl) rfl (Or.inl (by decide)) rfl
    (fun sid mid => by simp [countKey])
  exact ⟨h.1, by simpa using h.2.2.1 rfl, h.2.2.2.2⟩

end Archiver
